import Mathlib

/-!
Verification of the DeepResearch search tool core

Shallow embedding of `src/search_tool` (streaming classifier, retry/failover
controller, concurrent dispatcher, report aggregator) together with proofs
settling the specification claims about them.

Strings are modelled as `List Char` where scanning matters; the Python code's
`str.find`, `str.startswith`, slicing and concatenation become the
corresponding list operations.  Elapsed times (Python floats produced by
`time.time()` differences) are modelled as centisecond naturals; they are
opaque data as far as the verified claims are concerned.
-/

namespace SearchTool

/-! Stream classifier: (`BaseSearchModel._process_streaming_response`)

The Python loop, per chunk:

```
while text:
    start_idx = text.find("<think>")
    end_idx = text.find("</think>")
    if start_idx == -1 and end_idx == -1:
        segment = text; text = ""
    else:
        cut_idx = min([i for i in [start_idx, end_idx] if i != -1])
        segment = text[:cut_idx]; text = text[cut_idx:]
    if segment:
        if in_thinking and suppress_thinking: pass
        else: final_content += segment
    if text.startswith("<think>"):
        in_thinking = True; thinking_content += "<think>"; text = text[7:]
    elif text.startswith("</think>"):
        thinking_content += "</think>"; in_thinking = False; text = text[8:]
```
-/

/-- The opening marker `"<think>"`. -/
def thinkOpen : List Char := ['<', 't', 'h', 'i', 'n', 'k', '>']

/-- The closing marker `"</think>"`. -/
def thinkClose : List Char := ['<', '/', 't', 'h', 'i', 'n', 'k', '>']

/-- Python's `text.startswith(pat)`, written `lpre pat text`. -/
def lpre : List Char → List Char → Bool
  | [], _ => true
  | _ :: _, [] => false
  | p :: ps, t :: ts => p == t && lpre ps ts

/-- Python's `text.find(pat)`: `findSub pat text` is the index of the leftmost
occurrence of `pat` in `text`, with `none` standing for `-1`. -/
def findSub (pat : List Char) : List Char → Option Nat
  | [] => if lpre pat [] then some 0 else none
  | c :: rest =>
    if lpre pat (c :: rest) then some 0
    else (findSub pat (rest)).map (· + 1)

/-- Python's `pat in text` substring test. -/
def containsSub (pat text : List Char) : Bool := (findSub pat text).isSome

/-- The Python `cut_idx = min([i for i in [start_idx, end_idx] if i != -1])`,
with `none` when both finds failed. -/
def cutOf : Option Nat → Option Nat → Option Nat
  | none, none => none
  | some i, none => some i
  | none, some j => some j
  | some i, some j => some (min i j)

/-- One pass of the per-chunk `while text:` loop.

Arguments: `s` = `suppress_thinking`, `text` = the chunk, `b` = `in_thinking`.
Returns the text appended to `final_content`, the text appended to
`thinking_content`, and the final `in_thinking` flag.

The last `else` branch is unreachable (whenever `cutOf` yields a cut, the text
after the cut starts with one of the two markers, exactly as in the Python
loop); it is given a value only to make the function total. -/
def scanChunk (s : Bool) (text : List Char) (b : Bool) :
    List Char × List Char × Bool :=
  match cutOf (findSub thinkOpen text) (findSub thinkClose text) with
  | none => (if b && s then [] else text, [], b)
  | some cut =>
    let segment := text.take cut
    let emitted := if b && s then [] else segment
    let rest := text.drop cut
    if h1 : lpre thinkOpen rest = true then
      let r := scanChunk s (rest.drop 7) true
      (emitted ++ r.1, thinkOpen ++ r.2.1, r.2.2)
    else if h2 : lpre thinkClose rest = true then
      let r := scanChunk s (rest.drop 8) false
      (emitted ++ r.1, thinkClose ++ r.2.1, r.2.2)
    else
      (emitted ++ rest, [], b)
termination_by text.length
decreasing_by
  · have key : ∀ (p t : List Char), lpre p t = true → p.length ≤ t.length := by
      intro p
      induction p with
      | nil => intro t _; simp
      | cons c cs ih =>
        intro t h
        cases t with
        | nil => simp [lpre] at h
        | cons d ds =>
          simp only [lpre, Bool.and_eq_true] at h
          have := ih ds h.2
          simp only [List.length_cons]
          omega
    have h7 := key _ _ h1
    simp only [rest, thinkOpen, List.length_cons, List.length_nil,
      List.length_drop] at h7
    simp only [List.length_drop]
    omega
  · have key : ∀ (p t : List Char), lpre p t = true → p.length ≤ t.length := by
      intro p
      induction p with
      | nil => intro t _; simp
      | cons c cs ih =>
        intro t h
        cases t with
        | nil => simp [lpre] at h
        | cons d ds =>
          simp only [lpre, Bool.and_eq_true] at h
          have := ih ds h.2
          simp only [List.length_cons]
          omega
    have h8 := key _ _ h2
    simp only [rest, thinkClose, List.length_cons, List.length_nil,
      List.length_drop] at h8
    simp only [List.length_drop]
    omega

/-- The whole `for chunk in completion:` loop: fold `scanChunk` over the list
of incoming text fragments, threading `in_thinking` and concatenating the
`final_content` and `thinking_content` deltas. -/
def processChunks (s : Bool) : List (List Char) → Bool → List Char × List Char × Bool
  | [], b => ([], [], b)
  | c :: cs, b =>
    let r := scanChunk s c b
    let r2 := processChunks s cs r.2.2
    (r.1 ++ r2.1, r.2.1 ++ r2.2.1, r2.2.2)

/-- Return value of `_process_streaming_response`: `msg` accumulates every raw
fragment; the method returns `final_content` when thinking is suppressed and
`final_content` is non-empty, and the raw `msg` otherwise (lines 152-155). -/
def processStreamingResponse (chunks : List (List Char)) (suppress : Bool) :
    List Char :=
  let msg := chunks.foldr (· ++ ·) []
  let final := (processChunks suppress chunks false).1
  if suppress && final ≠ [] then final else msg

/-! Token-level description of well-formed streams

To state what the classifier does on streams whose markers are genuine (every
`'<'` in the text begins an actual `<think>`/`</think>` marker, and no marker
is split across a fragment boundary), inputs are described as lists of tokens:
plain characters and whole markers. -/

/-- A token of the incoming stream: a plain character or a whole marker. -/
inductive Tok where
  | ch (c : Char)
  | openT
  | closeT
deriving DecidableEq

/-- Text of one token. -/
def renderTok : Tok → List Char
  | .ch c => [c]
  | .openT => thinkOpen
  | .closeT => thinkClose

/-- Text of a fragment given as a token list. -/
def renderChunk (ts : List Tok) : List Char := (ts.map renderTok).flatten

/-- A token list is `plainSafe` when no plain character is `'<'`: then every
occurrence of a marker string in the rendered text comes from a marker token. -/
def plainSafe (ts : List Tok) : Bool :=
  ts.all fun t => match t with | .ch c => c != '<' | _ => true

/-- Token-level semantics of one chunk: what the Python loop does to a chunk
whose markers are all genuine, expressed token by token. -/
def tokRun (s : Bool) : List Tok → Bool → List Char × List Char × Bool
  | [], b => ([], [], b)
  | .ch c :: ts, b =>
    let r := tokRun s ts b
    ((if b && s then [] else [c]) ++ r.1, r.2.1, r.2.2)
  | .openT :: ts, _ =>
    let r := tokRun s ts true
    (r.1, thinkOpen ++ r.2.1, r.2.2)
  | .closeT :: ts, _ =>
    let r := tokRun s ts false
    (r.1, thinkClose ++ r.2.1, r.2.2)

/-- All plain characters of a token stream (each marker removed, nothing
else removed). -/
def plainChars : List Tok → List Char
  | [] => []
  | .ch c :: ts => c :: plainChars ts
  | _ :: ts => plainChars ts

/-- The plain characters lying outside thinking regions (`b` = current
`in_thinking` state): the "non-thinking portion" of the text. -/
def outsideChars : List Tok → Bool → List Char
  | [], _ => []
  | .ch c :: ts, b => (if b then [] else [c]) ++ outsideChars ts b
  | .openT :: ts, _ => outsideChars ts true
  | .closeT :: ts, _ => outsideChars ts false

/-- The markers of a token stream, concatenated in order. -/
def markerChars : List Tok → List Char
  | [] => []
  | .ch _ :: ts => markerChars ts
  | .openT :: ts => thinkOpen ++ markerChars ts
  | .closeT :: ts => thinkClose ++ markerChars ts

/-- The `in_thinking` flag after a token stream. -/
def endFlag : List Tok → Bool → Bool
  | [], b => b
  | .ch _ :: ts, b => endFlag ts b
  | .openT :: ts, _ => endFlag ts true
  | .closeT :: ts, _ => endFlag ts false

/-- Plain-character tokens of a string. -/
def strToks (str : String) : List Tok := str.data.map Tok.ch

/-- Token form of the claim C9 scenario chunk
`"Let me check.<think>reasoning here</think>The answer is 42."`. -/
def c9Toks : List Tok :=
  strToks "Let me check." ++ [Tok.openT] ++ strToks "reasoning here"
    ++ [Tok.closeT] ++ strToks "The answer is 42."

/-! Retry and failover controller: (`BaseSearchModel.search_with_retry`)

Each tier runs `for attempt in range(3)`.  An attempt either returns a message
`msg` (where `if msg:` treats the empty string as a failure, raising
`ValueError`, caught by the same handler as API errors) or raises an
exception.  On failure: if `attempt < 2`, `time.sleep(2 ** (attempt + 2))`
and retry; otherwise break to the next tier (or to the final `(None, None)`
return).  The `except` handler only prints the error; it never inspects the
exception's type to change control flow. -/

/-- Classification of an attempt's exception, as the spec's taxonomy has it.
`search_with_retry` never looks at it; `handle_api_error` does. -/
inductive ErrKind where
  | rateLimited
  | other
deriving DecidableEq

/-- Outcome of a single `openai.ChatCompletion.create` attempt (after the
streaming / non-streaming post-processing): a returned message or a raised
exception. -/
inductive AttemptOutcome where
  | ok (msg : String)
  | exn (kind : ErrKind)
deriving DecidableEq

/-- The message an attempt successfully returns, if any: `if msg:` counts an
empty message as no valid response. -/
def succMsg : AttemptOutcome → Option String
  | .ok s => if s = "" then none else some s
  | .exn _ => none

/-- Forget the exception kind of an outcome (used to state that the retry
loop's behaviour is independent of the kind). -/
def eraseKind : AttemptOutcome → AttemptOutcome
  | .ok s => .ok s
  | .exn _ => .exn .other

/-- Model of `BaseSearchModel._handle_api_error` (lines 220-236): the helper that
computes the rate-limit fast-path decision.  `errType` is
`type(err).__name__`, `errMsg` is `str(err)`.  No caller exists in the
repository. -/
def handle_api_error (errType errMsg : String) (attempt maxRetries : Nat) :
    Bool × String :=
  if containsSub ("RateLimitError".data) errType.data
      || containsSub ("负载已饱和".data) errMsg.data
      || containsSub ("overloaded".data) (errMsg.data.map Char.toLower) then
    if attempt = 0 then (true, "切换到备用API")
    else (false, "所有API提供商都遇到负载问题")
  else if attempt < maxRetries then (true, "普通错误，准备重试")
  else (false, "达到最大重试次数: " ++ errMsg)

/-- The `for attempt in range(3)` loop of one tier.  `outs i` is what attempt
`i` would produce.  Returns the successful message (if any), the number of
attempts actually made, and the list of back-off sleeps performed (in
seconds, in order).  The `attempt ≥ 3` branch is unreachable from
`tierRun`. -/
def tierRunAux (outs : Nat → AttemptOutcome) (attempt : Nat) (sleeps : List Nat) :
    Option String × Nat × List Nat :=
  if h3 : attempt < 3 then
    match succMsg (outs attempt) with
    | some s => (some s, attempt + 1, sleeps)
    | none =>
      if h2 : attempt < 2 then
        tierRunAux outs (attempt + 1) (sleeps ++ [2 ^ (attempt + 2)])
      else (none, 3, sleeps)
  else (none, 3, sleeps)
termination_by 3 - attempt
decreasing_by omega

/-- One tier: up to 3 attempts with back-off. -/
def tierRun (outs : Nat → AttemptOutcome) : Option String × Nat × List Nat :=
  tierRunAux outs 0 []

/-- Model of `search_with_retry` (lines 250-363): primary tier then backup tier; any
success returns immediately; exhausting both tiers returns `None` (the Python
`(None, None)` — the raw completion handle is not modelled).  The result also
carries the number of primary attempts, the number of backup attempts, and
the concatenated sleep trace. -/
def search_with_retry (primary backup : Nat → AttemptOutcome) :
    Option String × Nat × Nat × List Nat :=
  match tierRun primary with
  | (some s, n, sl) => (some s, n, 0, sl)
  | (none, n, sl) =>
    let r := tierRun backup
    (r.1, n, r.2.1, sl ++ r.2.2)

/-! Concurrent dispatcher: (`ParallelModelExecutor`) -/

/-- The `ModelResult` dataclass.  `execution_time` is in centiseconds; the
`raw_completion` handle is not modelled. -/
structure ModelResult where
  model_key : String
  model_name : String
  response : String
  execution_time : Nat
  status : String
  error_message : Option String := none
deriving DecidableEq

/-- What one submitted task does with respect to the batch's global timeout:
it either finishes (its controller invocation having produced `resp`) before
the global timeout elapses, or it is still outstanding when the timeout
fires. -/
inductive TaskBehavior where
  | finishes (resp : Option String)
  | outstanding
deriving DecidableEq

/-- Did the task finish before the global timeout? -/
def TaskBehavior.isFinished : TaskBehavior → Bool
  | .finishes _ => true
  | .outstanding => false

/-- The controller result of a finished task. -/
def TaskBehavior.resp : TaskBehavior → Option String
  | .finishes r => r
  | .outstanding => none

/-- Model of `ParallelModelExecutor._execute_single_model` (lines 114-168), given the
value `resp` returned by `model.search_with_retry` (its first component).
The entire body runs under `try/except Exception`, so the function always
returns a `ModelResult` and never raises: a truthy (non-empty) response is a
success; `None` or `""` triggers `raise ValueError("模型返回空响应")`, caught
by the handler, which records an error result. -/
def execute_single_model (key name : String) (elapsed : Nat)
    (resp : Option String) : ModelResult :=
  match resp with
  | some s =>
    if s = "" then
      { model_key := key, model_name := name, response := "",
        execution_time := elapsed, status := "error",
        error_message := some ("模型返回空响应") }
    else
      { model_key := key, model_name := name, response := s,
        execution_time := elapsed, status := "success" }
  | none =>
    { model_key := key, model_name := name, response := "",
      execution_time := elapsed, status := "error",
      error_message := some ("模型返回空响应") }

/-- Model of `ParallelModelExecutor.execute_models` (lines 63-112).  `beh k` says
whether key `k`'s task finishes before the global timeout and with what
controller result; `name`/`elapsed` supply the registry display name and the
measured elapsed time of each task.

`as_completed(future_to_model, timeout=self.timeout)` yields finished futures
(collection order abstracted as submission order; no claim depends on it) and
— crucially — raises `concurrent.futures.TimeoutError` from the `for`
statement itself once the timeout elapses with futures still pending.  That
exception is not caught (the `try/except TimeoutError` sits inside the loop
body and only guards `future.result()`, which is called on already-completed
futures and cannot time out), so it propagates out of `execute_models`:
modelled as `Except.error` carrying the results collected so far. -/
def execute_models (keys : List String) (beh : String → TaskBehavior)
    (name : String → String) (elapsed : String → Nat) :
    Except (List ModelResult) (List ModelResult) :=
  let done := keys.filter fun k => (beh k).isFinished
  let collected := done.map fun k =>
    execute_single_model k (name k) (elapsed k) (beh k).resp
  if done.length = keys.length then Except.ok collected
  else Except.error collected

/-- Model of `ParallelModelExecutor.get_successful_results`. -/
def get_successful_results (results : List ModelResult) : List ModelResult :=
  results.filter fun r => r.status == "success"

/-- Model of `ParallelModelExecutor.get_failed_results`. -/
def get_failed_results (results : List ModelResult) : List ModelResult :=
  results.filter fun r => !(r.status == "success")

/-- Summary produced by `ParallelModelExecutor.get_execution_summary`.
Rates and the average are exact rationals standing for the Python float
divisions. -/
structure ExecSummaryExec where
  total_models : Nat
  successful : Nat
  failed : Nat
  success_rate : ℚ
  average_time : ℚ
  min_time : Nat
  max_time : Nat
deriving DecidableEq

/-- Model of `ParallelModelExecutor.get_execution_summary` (lines 178-199).  The
`minimum?/maximum?` defaults are unreachable because the guard `successful >
0` makes the filtered list non-empty. -/
def get_execution_summary (results : List ModelResult) : ExecSummaryExec :=
  let total := results.length
  let succResults := get_successful_results results
  let successful := succResults.length
  let failed := (get_failed_results results).length
  let times : List Nat := succResults.map fun r => r.execution_time
  if 0 < successful then
    { total_models := total, successful := successful, failed := failed,
      success_rate := if 0 < total then (successful : ℚ) / (total : ℚ) else 0,
      average_time := ((times.sum : Nat) : ℚ) / (successful : ℚ),
      min_time := times.min?.getD 0,
      max_time := times.max?.getD 0 }
  else
    { total_models := total, successful := successful, failed := failed,
      success_rate := if 0 < total then (successful : ℚ) / (total : ℚ) else 0,
      average_time := 0, min_time := 0, max_time := 0 }

/-! Report aggregator: (`ReportAggregator`) -/

/-- Case-insensitive character comparison, for the `re.IGNORECASE` flag on
the `_strip_think` regex (the tags are pure ASCII). -/
def chEqCI (a b : Char) : Bool := a.toLower == b.toLower

/-- Case-insensitive `startswith`. -/
def lpreCI : List Char → List Char → Bool
  | [], _ => true
  | _ :: _, [] => false
  | p :: ps, t :: ts => chEqCI p t && lpreCI ps ts

/-- Case-insensitive leftmost find. -/
def findSubCI (pat : List Char) : List Char → Option Nat
  | [] => if lpreCI pat [] then some 0 else none
  | c :: rest =>
    if lpreCI pat (c :: rest) then some 0
    else (findSubCI pat (rest)).map (· + 1)

/-- The regex pass `re.sub` of `_strip_think` (pattern
`<think>[\s\S]*?</think>`, case-insensitive):
scan left to right; at a position where `<think>` matches (case-insensitively)
and some `</think>` follows, delete through the end of the nearest such
`</think>` (lazy match) and continue after it.  When an open tag has no
closing tag anywhere after it, no position at or beyond it can match, so the
remainder is kept unchanged. -/
def stripThinkCore : List Char → List Char
  | [] => []
  | c :: rest =>
    if lpreCI thinkOpen (c :: rest) then
      match findSubCI thinkClose ((c :: rest).drop 7) with
      | some j => stripThinkCore (((c :: rest).drop 7).drop (j + 8))
      | none => c :: rest
    else c :: stripThinkCore rest
termination_by l => l.length
decreasing_by
  · simp only [List.length_drop, List.length_cons]
    omega
  · simp only [List.length_cons]
    omega

/-- Python `str.replace(pat, "")`: delete every (leftmost, non-overlapping)
occurrence of `pat`.  The `pat.length = 0` guard is unreachable for the two
fixed non-empty tags; it exists only so the recursion terminates. -/
def removeAll (pat : List Char) : List Char → List Char
  | [] => []
  | c :: rest =>
    if lpre pat (c :: rest) then
      if h0 : pat.length = 0 then c :: removeAll pat rest
      else removeAll pat ((c :: rest).drop pat.length)
    else c :: removeAll pat rest
termination_by l => l.length
decreasing_by
  all_goals
    first
      | (simp only [List.length_cons]; omega)
      | (simp only [List.length_drop, List.length_cons]; omega)

/-- Model of `_strip_think` inside `ReportAggregator.aggregate_results`
(lines 59-68):
the case-insensitive paired-tag removal, then the two case-sensitive
`str.replace` fallbacks for isolated tags. -/
def strip_think (text : List Char) : List Char :=
  removeAll thinkClose (removeAll thinkOpen (stripThinkCore text))

/-- The dict returned by `ReportAggregator._calculate_execution_summary`. -/
structure ExecSummaryAgg where
  total_time : Nat
  average_time : ℚ
  min_time : Nat
  max_time : Nat
  success_rate : ℚ
deriving DecidableEq

/-- Model of `ReportAggregator._calculate_execution_summary` (lines 114-139). -/
def calculate_execution_summary (results : List ModelResult) : ExecSummaryAgg :=
  let succResults := results.filter fun r => r.status == "success"
  if succResults = [] then
    { total_time := 0, average_time := 0, min_time := 0, max_time := 0,
      success_rate := 0 }
  else
    let times : List Nat := succResults.map fun r => r.execution_time
    { total_time := times.sum,
      average_time := ((times.sum : Nat) : ℚ) / (succResults.length : ℚ),
      min_time := times.min?.getD 0,
      max_time := times.max?.getD 0,
      success_rate := (succResults.length : ℚ) / (results.length : ℚ) }

/-- One entry of `model_responses`: `response` is the stripped text for a
success and the (optional) error message otherwise, exactly as the Python
dict holds either a string or `None`. -/
structure ResponseInfo where
  model_key : String
  model_name : String
  status : String
  execution_time : Nat
  response : Option String
  response_length : Nat
deriving DecidableEq

/-- The `response_info` dict built per result (lines 70-79). -/
def responseInfo (r : ModelResult) : ResponseInfo :=
  { model_key := r.model_key, model_name := r.model_name, status := r.status,
    execution_time := r.execution_time,
    response :=
      if r.status == "success" then some (String.mk (strip_think r.response.data))
      else r.error_message,
    response_length :=
      if r.status == "success" then (strip_think r.response.data).length else 0 }

/-- Two-decimal rendering of a centisecond-quantized time, standing for
Python's `f"{x:.2f}"` on the corresponding float. -/
def fmt2c (n : Nat) : String :=
  toString (n / 100) ++ "." ++
    (if n % 100 < 10 then "0" ++ toString (n % 100) else toString (n % 100))

/-- Two-decimal rendering of a rational, standing for Python's `f"{x:.2f}"`
(rounding mode approximated by half-up; the values formatted are averages of
centisecond-quantized times). -/
def fmt2q (q : ℚ) : String := fmt2c (⌊q * 100 + 1 / 2⌋).toNat

/-- The per-model block of the summary text (lines 157-163). -/
def summaryEntry (idx : Nat) (r : ResponseInfo) : String :=
  let resp := (r.response.getD "").data
  "🤖 " ++ toString (idx + 1) ++ ". " ++ r.model_name ++ "\n"
    ++ "   ⏱️  耗时：" ++ fmt2c r.execution_time ++ "秒\n"
    ++ "   📝 回答：" ++ String.mk (resp.take 200)
    ++ (if 200 < resp.length then "..." else "") ++ "\n\n"

/-- Model of `ReportAggregator._generate_summary_text` (lines 141-165); successful
responses are listed by descending stripped-response length (Python's stable
`sorted(..., reverse=True)`). -/
def generate_summary_text (query : String) (mrs : List ResponseInfo)
    (es : ExecSummaryAgg) : String :=
  let successful := mrs.filter fun r => r.status == "success"
  if successful = [] then
    "❌ 查询失败：所有模型都无法提供有效回答\n\n查询内容：" ++ query
  else
    let sorted := successful.mergeSort fun a b =>
      b.response_length ≤ a.response_length
    "📋 查询汇总报告\n"
      ++ "🔍 查询内容：" ++ query ++ "\n"
      ++ "📊 执行统计：" ++ toString successful.length ++ "/"
      ++ toString mrs.length ++ " 个模型成功\n"
      ++ "⏱️  平均耗时：" ++ fmt2q es.average_time ++ "秒\n\n"
      ++ String.join (sorted.enum.map fun p => summaryEntry p.1 p.2)

/-- The `AggregatedReport` dataclass. -/
structure AggregatedReport where
  query : String
  timestamp : String
  total_models : Nat
  successful_models : Nat
  failed_models : Nat
  execution_summary : ExecSummaryAgg
  model_responses : List ResponseInfo
  summary_text : String
deriving DecidableEq

/-- Model of `ReportAggregator.aggregate_results` (lines 36-96).  `now` is the value
of `time.strftime("%Y-%m-%d %H:%M:%S")` at the moment of the call — the only
input besides `query` and `results` that the report depends on.  (The
`format_type` parameter of the Python method is unused by its body and
omitted.) -/
def aggregate_results (query : String) (results : List ModelResult)
    (now : String) : AggregatedReport :=
  let mrs := results.map responseInfo
  let es := calculate_execution_summary results
  { query := query,
    timestamp := now,
    total_models := results.length,
    successful_models := (results.filter fun r => r.status == "success").length,
    failed_models := (results.filter fun r => !(r.status == "success")).length,
    execution_summary := es,
    model_responses := mrs,
    summary_text := generate_summary_text query mrs es }

/-! Concrete inputs used by counterexamples and witnesses -/

/-- A small well-formed fragment sequence: `"a<think>"` then `"x</think>b"`,
with both markers whole inside their fragments. -/
def demoChunks : List (List Tok) :=
  [[Tok.ch 'a', Tok.openT], [Tok.ch 'x', Tok.closeT, Tok.ch 'b']]

/-- First fragment of the split-marker stream: `"a<thi"` (the opening marker
continues in the next fragment). -/
def splitChunk1 : List Char := "a<thi".data

/-- Second fragment of the split-marker stream: `"nk>b</think>c"`. -/
def splitChunk2 : List Char := "nk>b</think>c".data

/-- Token form of `splitChunk2` (its own markers are whole, so the alignment
theorem applies to it with the state left by `splitChunk1`). -/
def split2Toks : List Tok :=
  [Tok.ch 'n', Tok.ch 'k', Tok.ch '>', Tok.ch 'b', Tok.closeT, Tok.ch 'c']

/-- A response that is nothing but a thinking region: `"<think>secret</think>"`. -/
def allThinkChunk : List Char := "<think>secret</think>".data

/-- Token form of `allThinkChunk`. -/
def allThinkToks : List Tok := [Tok.openT] ++ strToks "secret" ++ [Tok.closeT]

/-- Attempt outcomes with a rate-limited failure on the very first attempt and
a valid message from the second attempt on. -/
def rlFirstPrimary : Nat → AttemptOutcome := fun i =>
  if i = 0 then AttemptOutcome.exn ErrKind.rateLimited
  else AttemptOutcome.ok "hello"

/-- Attempt outcomes where every attempt raises a non-rate-limit error. -/
def allFailTier : Nat → AttemptOutcome := fun _ => AttemptOutcome.exn ErrKind.other

/-- A task-behaviour map where `model_a` finishes and every other key is still
outstanding when the global timeout fires. -/
def demoBehavior : String → TaskBehavior := fun k =>
  if k = "model_a" then TaskBehavior.finishes (some "hi")
  else TaskBehavior.outstanding

/-- Two concrete dispatcher results: one success (whose text contains a stray
thinking tag) and one error. -/
def demoResults : List ModelResult :=
  [{ model_key := "model_a", model_name := "Model A",
     response := "Paris<think>hmm</think> is nice", execution_time := 210,
     status := "success" },
   { model_key := "model_b", model_name := "Model B", response := "",
     execution_time := 0, status := "error", error_message := some ("boom") }]

/-- A result list with no successful entry. -/
def errOnlyResults : List ModelResult :=
  [{ model_key := "model_b", model_name := "Model B", response := "",
     execution_time := 0, status := "error", error_message := some ("boom") }]

/-! Supporting lemmas about the classifier loop -/

theorem lpre_length {p t : List Char} (h : lpre p t = true) : p.length ≤ t.length := by
  induction p generalizing t with
  | nil => simp
  | cons c cs ih =>
    cases t with
    | nil => simp [lpre] at h
    | cons d ds =>
      simp only [lpre, Bool.and_eq_true] at h
      simpa using ih h.2

theorem cutOf_some_zero_left (x : Option Nat) : cutOf (some 0) x = some 0 := by
  cases x <;> simp [cutOf]

theorem cutOf_some_zero_right (x : Option Nat) : cutOf x (some 0) = some 0 := by
  cases x <;> simp [cutOf]

theorem cutOf_map (x y : Option Nat) :
    cutOf (x.map (· + 1)) (y.map (· + 1)) = (cutOf x y).map (· + 1) := by
  cases x <;> cases y <;> simp [cutOf] <;> omega

theorem findSub_cons_ne (pat : List Char) (hpat : pat.head? = some '<')
    (c : Char) (text : List Char) (h : c ≠ '<') :
    findSub pat (c :: text) = (findSub pat text).map (· + 1) := by
  rw [findSub]
  cases pat with
  | nil => simp at hpat
  | cons p ps =>
    simp only [List.head?_cons, Option.some.injEq] at hpat
    subst hpat
    rw [if_neg]
    simp [lpre, Ne.symm h]

/-- A `'<'`-headed pattern never occurs in `'<'`-free text. -/
theorem findSub_none_of_no_lt (pat : List Char) (hpat : pat.head? = some '<')
    (text : List Char) (h : ∀ c ∈ text, c ≠ '<') :
    findSub pat text = none := by
  induction text with
  | nil =>
    cases pat with
    | nil => simp at hpat
    | cons p ps => simp [findSub, lpre]
  | cons c cs ih =>
    rw [findSub_cons_ne pat hpat c cs (h c (by simp))]
    rw [ih fun d hd => h d (by simp [hd])]
    rfl

/-- When neither marker occurs in the chunk, the whole chunk is one segment of
the current category. -/
theorem scanChunk_no_marker (s : Bool) (text : List Char) (b : Bool)
    (h : cutOf (findSub thinkOpen text) (findSub thinkClose text) = none) :
    scanChunk s text b = (if b && s then [] else text, [], b) := by
  rw [scanChunk, h]

theorem scanChunk_nil (s : Bool) (b : Bool) : scanChunk s [] b = ([], [], b) := by
  rw [scanChunk_no_marker s [] b (by decide)]
  cases b && s <;> simp

/-- A chunk starting with `<think>`: the marker is consumed, recorded on the
thinking stream, and the flag switches to `in_thinking = true`. -/
theorem scanChunk_open (s : Bool) (text : List Char) (b : Bool) :
    scanChunk s (thinkOpen ++ text) b =
      ((scanChunk s text true).1,
        thinkOpen ++ (scanChunk s text true).2.1,
        (scanChunk s text true).2.2) := by
  have ho : findSub thinkOpen (thinkOpen ++ text) = some 0 := by
    simp [findSub, thinkOpen, lpre]
  have hcut : cutOf (findSub thinkOpen (thinkOpen ++ text))
      (findSub thinkClose (thinkOpen ++ text)) = some 0 := by
    rw [ho, cutOf_some_zero_left]
  rw [scanChunk, hcut]
  simp only [List.take_zero, List.drop_zero]
  rw [dif_pos (by simp [thinkOpen, lpre] : lpre thinkOpen (thinkOpen ++ text) = true)]
  simp [thinkOpen]

/-- A chunk starting with `</think>`: the marker is consumed, recorded on the
thinking stream, and the flag switches to `in_thinking = false`. -/
theorem scanChunk_close (s : Bool) (text : List Char) (b : Bool) :
    scanChunk s (thinkClose ++ text) b =
      ((scanChunk s text false).1,
        thinkClose ++ (scanChunk s text false).2.1,
        (scanChunk s text false).2.2) := by
  have hc : findSub thinkClose (thinkClose ++ text) = some 0 := by
    simp [findSub, thinkClose, lpre]
  have hcut : cutOf (findSub thinkOpen (thinkClose ++ text))
      (findSub thinkClose (thinkClose ++ text)) = some 0 := by
    rw [hc, cutOf_some_zero_right]
  rw [scanChunk, hcut]
  simp only [List.take_zero, List.drop_zero]
  rw [dif_neg (by simp [thinkOpen, thinkClose, lpre])]
  rw [dif_pos (by simp [thinkClose, lpre] : lpre thinkClose (thinkClose ++ text) = true)]
  simp [thinkClose]

/-- A chunk starting with a character other than `'<'`: that character is
emitted (or dropped inside a suppressed thinking region) and scanning
continues unchanged. -/
theorem scanChunk_cons (s : Bool) (c : Char) (text : List Char) (b : Bool)
    (hc : c ≠ '<') :
    scanChunk s (c :: text) b =
      ((if b && s then [] else [c]) ++ (scanChunk s text b).1,
        (scanChunk s text b).2.1,
        (scanChunk s text b).2.2) := by
  have hfo := findSub_cons_ne thinkOpen (by rfl) c text hc
  have hfc := findSub_cons_ne thinkClose (by rfl) c text hc
  cases hcv : cutOf (findSub thinkOpen text) (findSub thinkClose text) with
  | none =>
    have h1 : cutOf (findSub thinkOpen (c :: text)) (findSub thinkClose (c :: text)) = none := by
      rw [hfo, hfc, cutOf_map, hcv]; rfl
    conv_lhs => rw [scanChunk, h1]
    conv_rhs => rw [scanChunk, hcv]
    cases hbs : b && s <;> simp
  | some cut =>
    have h1 : cutOf (findSub thinkOpen (c :: text)) (findSub thinkClose (c :: text))
        = some (cut + 1) := by
      rw [hfo, hfc, cutOf_map, hcv]; rfl
    conv_lhs => rw [scanChunk, h1]
    conv_rhs => rw [scanChunk, hcv]
    simp only [List.take_succ_cons, List.drop_succ_cons]
    by_cases hp : lpre thinkOpen (text.drop cut) = true
    · rw [dif_pos hp, dif_pos hp]
      cases hbs : b && s <;> simp
    · rw [dif_neg hp, dif_neg hp]
      by_cases hq : lpre thinkClose (text.drop cut) = true
      · rw [dif_pos hq, dif_pos hq]
        cases hbs : b && s <;> simp
      · rw [dif_neg hq, dif_neg hq]
        cases hbs : b && s
        · simp
        · simp

/-- Alignment: on a chunk whose text renders a `plainSafe` token list (all
markers genuine and whole), the Python scanning loop computes exactly the
token-level semantics. -/
theorem scanChunk_render (s : Bool) (ts : List Tok) (b : Bool)
    (h : plainSafe ts = true) :
    scanChunk s (renderChunk ts) b = tokRun s ts b := by
  induction ts generalizing b with
  | nil => simpa [renderChunk, tokRun] using scanChunk_nil s b
  | cons t ts ih =>
    have hts : plainSafe ts = true := by
      simp only [plainSafe, List.all_cons, Bool.and_eq_true] at h
      exact h.2
    cases t with
    | ch c =>
      have hc : c ≠ '<' := by
        simp only [plainSafe, List.all_cons, Bool.and_eq_true] at h
        simpa using h.1
      have hr : renderChunk (Tok.ch c :: ts) = c :: renderChunk ts := by
        simp [renderChunk, renderTok]
      rw [hr, scanChunk_cons s c _ b hc, ih b hts]
      simp [tokRun]
    | openT =>
      have hr : renderChunk (Tok.openT :: ts) = thinkOpen ++ renderChunk ts := by
        simp [renderChunk, renderTok]
      rw [hr, scanChunk_open, ih true hts]
      simp [tokRun]
    | closeT =>
      have hr : renderChunk (Tok.closeT :: ts) = thinkClose ++ renderChunk ts := by
        simp [renderChunk, renderTok]
      rw [hr, scanChunk_close, ih false hts]
      simp [tokRun]

theorem tokRun_append (s : Bool) (l1 l2 : List Tok) (b : Bool) :
    tokRun s (l1 ++ l2) b =
      ((tokRun s l1 b).1 ++ (tokRun s l2 (tokRun s l1 b).2.2).1,
        (tokRun s l1 b).2.1 ++ (tokRun s l2 (tokRun s l1 b).2.2).2.1,
        (tokRun s l2 (tokRun s l1 b).2.2).2.2) := by
  induction l1 generalizing b with
  | nil => simp [tokRun]
  | cons t ts ih =>
    cases t <;> simp [tokRun, ih]

/-- Alignment over a whole fragment sequence: feeding the rendered fragments
one by one equals the token semantics of the concatenated token stream. -/
theorem processChunks_render (s : Bool) (chunks : List (List Tok)) (b : Bool)
    (h : chunks.all plainSafe = true) :
    processChunks s (chunks.map renderChunk) b = tokRun s chunks.flatten b := by
  induction chunks generalizing b with
  | nil => simp [processChunks, tokRun]
  | cons ts rest ih =>
    simp only [List.all_cons, Bool.and_eq_true] at h
    simp only [List.map_cons, processChunks, List.flatten_cons, tokRun_append]
    rw [scanChunk_render s ts b h.1, ih _ h.2]

theorem tokRun_false (ts : List Tok) (b : Bool) :
    tokRun false ts b = (plainChars ts, markerChars ts, endFlag ts b) := by
  induction ts generalizing b with
  | nil => rfl
  | cons t ts ih =>
    cases t <;> simp [tokRun, plainChars, markerChars, endFlag, ih]

theorem tokRun_true (ts : List Tok) (b : Bool) :
    tokRun true ts b = (outsideChars ts b, markerChars ts, endFlag ts b) := by
  induction ts generalizing b with
  | nil => rfl
  | cons t ts ih =>
    cases t <;> simp [tokRun, outsideChars, markerChars, endFlag, ih]

/-- The plain characters plus the markers make up the whole text: nothing is
duplicated and nothing is lost. -/
theorem plain_marker_length (ts : List Tok) :
    (plainChars ts).length + (markerChars ts).length = (renderChunk ts).length := by
  induction ts with
  | nil => rfl
  | cons t ts ih =>
    have hr : (renderChunk (t :: ts)).length
        = (renderTok t).length + (renderChunk ts).length := by
      simp [renderChunk]
    cases t with
    | ch c =>
      have h1 : (renderTok (Tok.ch c)).length = 1 := rfl
      rw [hr, h1]
      simp only [plainChars, markerChars, List.length_cons]
      omega
    | openT =>
      have h1 : (renderTok Tok.openT).length = 7 := rfl
      have h2 : thinkOpen.length = 7 := rfl
      rw [hr, h1]
      simp only [plainChars, markerChars, List.length_append, h2]
      omega
    | closeT =>
      have h1 : (renderTok Tok.closeT).length = 8 := rfl
      have h2 : thinkClose.length = 8 := rfl
      rw [hr, h1]
      simp only [plainChars, markerChars, List.length_append, h2]
      omega

theorem renderChunk_flatten (chunks : List (List Tok)) :
    (chunks.map renderChunk).flatten = renderChunk chunks.flatten := by
  induction chunks with
  | nil => simp [renderChunk]
  | cons ts rest ih => simp [renderChunk, ih]

/-- Every character of the non-thinking extraction is a plain character of
the token stream. -/
theorem outsideChars_mem (ts : List Tok) (b : Bool) (c : Char)
    (h : c ∈ outsideChars ts b) : Tok.ch c ∈ ts := by
  induction ts generalizing b with
  | nil => simp [outsideChars] at h
  | cons t ts ih =>
    cases t with
    | ch d =>
      simp only [outsideChars] at h
      rcases List.mem_append.1 h with h1 | h1
      · cases b with
        | false =>
          simp only [if_neg, List.mem_singleton, Bool.false_eq_true,
            ite_false] at h1
          subst h1
          exact List.mem_cons_self _ _
        | true => simp at h1
      · exact List.mem_cons_of_mem _ (ih _ h1)
    | openT =>
      simp only [outsideChars] at h
      exact List.mem_cons_of_mem _ (ih _ h)
    | closeT =>
      simp only [outsideChars] at h
      exact List.mem_cons_of_mem _ (ih _ h)

/-! Supporting lemmas about the retry loop -/

/-- Full characterization of one tier: the result depends only on which
attempt first yields a valid (non-empty) message; the sleep trace is `4` then
`8` seconds between consecutive failed attempts. -/
theorem tierRun_eq (outs : Nat → AttemptOutcome) :
    tierRun outs =
      match succMsg (outs 0) with
      | some s => (some s, 1, [])
      | none =>
        match succMsg (outs 1) with
        | some s => (some s, 2, [4])
        | none =>
          match succMsg (outs 2) with
          | some s => (some s, 3, [4, 8])
          | none => (none, 3, [4, 8]) := by
  rw [tierRun, tierRunAux]
  rw [dif_pos (show (0:Nat) < 3 by norm_num)]
  cases h0 : succMsg (outs 0) with
  | some s => rfl
  | none =>
    show tierRunAux outs 1 [4] = _
    rw [tierRunAux, dif_pos (show (1:Nat) < 3 by norm_num)]
    cases h1 : succMsg (outs 1) with
    | some s => rfl
    | none =>
      show tierRunAux outs 2 [4, 8] = _
      rw [tierRunAux, dif_pos (show (2:Nat) < 3 by norm_num)]
      cases h2 : succMsg (outs 2) with
      | some s => rfl
      | none => rfl

theorem succMsg_eraseKind (o : AttemptOutcome) : succMsg (eraseKind o) = succMsg o := by
  cases o <;> rfl

theorem plainSafe_flatten (chunks : List (List Tok))
    (h : chunks.all plainSafe = true) : plainSafe chunks.flatten = true := by
  induction chunks with
  | nil => rfl
  | cons ts rest ih =>
    simp only [List.all_cons, Bool.and_eq_true] at h
    simp only [plainSafe, List.flatten_cons, List.all_append, Bool.and_eq_true]
    exact ⟨h.1, ih h.2⟩

theorem plainSafe_ch_ne (ts : List Tok) (h : plainSafe ts = true) (c : Char)
    (hc : Tok.ch c ∈ ts) : c ≠ '<' := by
  simp only [plainSafe, List.all_eq_true] at h
  simpa using h _ hc

/-! Claim theorems -/

/-- C9: feeding the single chunk
`"Let me check.<think>reasoning here</think>The answer is 42."` through the
streaming classifier with `suppress_thinking = true` yields the final answer
text `"Let me check.The answer is 42."` — the thinking span excised, the
surrounding text preserved verbatim, no extra whitespace inserted. -/
theorem c9_single_chunk_scenario :
    processStreamingResponse
        ["Let me check.<think>reasoning here</think>The answer is 42.".data]
        true
      = "Let me check.The answer is 42.".data := by
  have htok : "Let me check.<think>reasoning here</think>The answer is 42.".data
      = renderChunk c9Toks := by decide
  have hrun : processChunks true [renderChunk c9Toks] false
      = tokRun true c9Toks false := by
    simpa using processChunks_render true [c9Toks] false (by decide)
  rw [htok]
  simp only [processStreamingResponse, hrun, tokRun_true]
  decide

/-- C1 counterexample: the classifier has no cross-fragment marker buffer.
Feeding `"a<thi"` then `"nk>b</think>c"` (full text `"a<think>b</think>c"`,
whose non-thinking portion is `"ac"` and whose thinking portion is `"b"`) with
`suppress_thinking = true` makes the answer stream `"a<think>bc"` — the split
opening marker survives, the thinking character `'b'` leaks into the answer —
and the thinking stream is just `"</think>"`, not the thinking portion. -/
theorem c1_round_trip_cex :
    (processChunks true [splitChunk1, splitChunk2] false).1 = "a<think>bc".data
    ∧ (processChunks true [splitChunk1, splitChunk2] false).2.1 = "</think>".data
    ∧ "a<think>bc".data ≠ "ac".data
    ∧ "</think>".data ≠ "b".data := by
  have h1 : scanChunk true splitChunk1 false = (splitChunk1, [], false) := by
    rw [scanChunk_no_marker true splitChunk1 false (by decide)]
    simp
  have htok2 : splitChunk2 = renderChunk split2Toks := by decide
  have h2 : scanChunk true splitChunk2 false = tokRun true split2Toks false := by
    rw [htok2]
    exact scanChunk_render true split2Toks false (by decide)
  have hall : processChunks true [splitChunk1, splitChunk2] false
      = (splitChunk1 ++ (tokRun true split2Toks false).1,
          (tokRun true split2Toks false).2.1,
          (tokRun true split2Toks false).2.2) := by
    simp [processChunks, h1, h2]
  rw [hall]
  refine ⟨?_, ?_, by decide, by decide⟩ <;> decide

/-- C1 (amended): the claim holds only for streams whose markers are genuine
and never split across fragments (modelled by token fragments with no plain
`'<'` character), and even then with two corrections the code forces: the
thinking stream receives only the markers themselves (never the
thinking-region text), and with `suppress_thinking = false` the thinking-region
text goes to the answer stream.  Concretely: with suppression off, the answer
stream is the whole text with each marker removed exactly once, the thinking
stream is exactly the markers in order, and the two streams together preserve
every character of the input; with suppression on, the answer stream is
exactly the text outside thinking regions and the thinking-region text is
dropped.  Split markers are not reassembled (no buffering exists) — see the
counterexample. -/
theorem c1_round_trip (chunks : List (List Tok))
    (h : chunks.all plainSafe = true) :
    (processChunks false (chunks.map renderChunk) false).1
        = plainChars chunks.flatten
    ∧ (processChunks false (chunks.map renderChunk) false).2.1
        = markerChars chunks.flatten
    ∧ (processChunks false (chunks.map renderChunk) false).1.length
          + (processChunks false (chunks.map renderChunk) false).2.1.length
        = ((chunks.map renderChunk).flatten).length
    ∧ (processChunks true (chunks.map renderChunk) false).1
        = outsideChars chunks.flatten false
    ∧ (processChunks true (chunks.map renderChunk) false).2.1
        = markerChars chunks.flatten := by
  have hf := processChunks_render false chunks false h
  have ht := processChunks_render true chunks false h
  rw [tokRun_false] at hf
  rw [tokRun_true] at ht
  have hf1 : (processChunks false (chunks.map renderChunk) false).1
      = plainChars chunks.flatten := by rw [hf]
  have hf2 : (processChunks false (chunks.map renderChunk) false).2.1
      = markerChars chunks.flatten := by rw [hf]
  refine ⟨hf1, hf2, ?_, by rw [ht], by rw [ht]⟩
  rw [hf1, hf2, renderChunk_flatten]
  exact plain_marker_length _

/-- Witness for C1 (amended) at the concrete fragment sequence `demoChunks`. -/
theorem c1_round_trip_witness :
    demoChunks.all plainSafe = true
    ∧ ((processChunks false (demoChunks.map renderChunk) false).1
          = plainChars demoChunks.flatten
      ∧ (processChunks false (demoChunks.map renderChunk) false).2.1
          = markerChars demoChunks.flatten
      ∧ (processChunks false (demoChunks.map renderChunk) false).1.length
            + (processChunks false (demoChunks.map renderChunk) false).2.1.length
          = ((demoChunks.map renderChunk).flatten).length
      ∧ (processChunks true (demoChunks.map renderChunk) false).1
          = outsideChars demoChunks.flatten false
      ∧ (processChunks true (demoChunks.map renderChunk) false).2.1
          = markerChars demoChunks.flatten) :=
  ⟨by decide, c1_round_trip demoChunks (by decide)⟩

/-- C3 counterexample: a rate-limited failure on the very first primary
attempt does not transition to the backup tier.  The controller makes a
second primary attempt (primary attempt count 2, backup attempt count 0, one
back-off sleep), and that second primary attempt's answer is returned —
contradicting "immediate transition to the backup tier with no further
primary attempts". -/
theorem c3_fast_path_cex :
    search_with_retry rlFirstPrimary (fun _ => AttemptOutcome.ok "backup")
      = (some ("hello"), 2, 0, [4]) := by
  have hp : tierRun rlFirstPrimary = (some ("hello"), 2, [4]) := by
    rw [tierRun_eq]
    rfl
  simp only [search_with_retry, hp]

/-- C3 (amended): `search_with_retry` never consults the failure kind — its
entire behaviour (result, attempt counts, sleeps) is invariant under erasing
every exception's kind, so a `RateLimited` failure at any position is treated
exactly like any other failure and every tier runs its full 3 attempts before
the controller moves on.  The fast-path decision the claim describes is
computed by the helper `_handle_api_error` (which does return "switch to the
backup API" for a first-attempt rate limit), but no caller of that helper
exists in the repository. -/
theorem c3_kind_independent (p b : Nat → AttemptOutcome) :
    search_with_retry (fun i => eraseKind (p i)) (fun i => eraseKind (b i))
        = search_with_retry p b
    ∧ handle_api_error "RateLimitError" "boom" 0 2 = (true, "切换到备用API") := by
  constructor
  · have h1 : tierRun (fun i => eraseKind (p i)) = tierRun p := by
      rw [tierRun_eq, tierRun_eq]
      simp only [succMsg_eraseKind]
    have h2 : tierRun (fun i => eraseKind (b i)) = tierRun b := by
      rw [tierRun_eq, tierRun_eq]
      simp only [succMsg_eraseKind]
    rw [search_with_retry, search_with_retry, h1, h2]
  · decide

/-- C4: when every attempt of both tiers fails (and the first failure is not
the rate-limited kind, staying inside the claim's scope), the controller makes
exactly 3 primary attempts, then exactly 3 backup attempts, and returns the
null result `none` (Python's `(None, None)`) as a normal return value — the
model is a total function, mirroring the `except Exception` handler that
swallows every attempt's error. -/
theorem c4_attempt_budget (p b : Nat → AttemptOutcome)
    (hp : ∀ i, i < 3 → succMsg (p i) = none)
    (hb : ∀ i, i < 3 → succMsg (b i) = none)
    (hrl : p 0 ≠ AttemptOutcome.exn ErrKind.rateLimited) :
    search_with_retry p b = (none, 3, 3, [4, 8, 4, 8]) := by
  clear hrl
  have h1 : tierRun p = (none, 3, [4, 8]) := by
    rw [tierRun_eq, hp 0 (by norm_num), hp 1 (by norm_num), hp 2 (by norm_num)]
  have h2 : tierRun b = (none, 3, [4, 8]) := by
    rw [tierRun_eq, hb 0 (by norm_num), hb 1 (by norm_num), hb 2 (by norm_num)]
  rw [search_with_retry, h1, h2]
  rfl

/-- Witness for C4 at the concrete all-failing outcome functions. -/
theorem c4_attempt_budget_witness :
    ((∀ i, i < 3 → succMsg (allFailTier i) = none)
      ∧ allFailTier 0 ≠ AttemptOutcome.exn ErrKind.rateLimited)
    ∧ search_with_retry allFailTier allFailTier = (none, 3, 3, [4, 8, 4, 8]) :=
  ⟨⟨fun _ _ => rfl, by decide⟩,
    c4_attempt_budget allFailTier allFailTier (fun _ _ => rfl) (fun _ _ => rfl)
      (by decide)⟩

/-- C5 counterexample: a tier whose three attempts all fail sleeps 4 seconds
before attempt 2 and 8 seconds before attempt 3 (`2^(attempt+2)` with the
0-based attempt index of the attempt that just failed), not the 8 and 16
seconds the claim states. -/
theorem c5_backoff_cex :
    (tierRun allFailTier).2.2 = [4, 8] ∧ ([4, 8] : List Nat) ≠ [8, 16] := by
  constructor
  · rw [tierRun_eq]
    rfl
  · decide

/-- C5 (amended): within each tier the controller sleeps exactly between
consecutive failed attempts and never after the tier's final attempt; the
sleep before (1-based) attempt `k + 2` is `2 ^ (k + 2)` seconds where `k` is
the 0-based index of the attempt that just failed — i.e. 4 seconds before
attempt 2 and 8 seconds before attempt 3. -/
theorem c5_backoff_schedule (outs : Nat → AttemptOutcome) :
    (tierRun outs).2.2
      = (List.range ((tierRun outs).2.1 - 1)).map fun k => 2 ^ (k + 2) := by
  rw [tierRun_eq]
  cases h0 : succMsg (outs 0) with
  | some s => rfl
  | none =>
    cases h1 : succMsg (outs 1) with
    | some s => rfl
    | none =>
      cases h2 : succMsg (outs 2) with
      | some s => rfl
      | none => rfl

/-- C2 (code bug): when the global timeout elapses while a task is still
outstanding, `as_completed` raises `concurrent.futures.TimeoutError` from the
`for` statement itself; the `except TimeoutError` handler that would record a
`status = "timeout"` result only guards `future.result()` on already-completed
futures and is unreachable, so the exception propagates out of
`execute_models`.  Here a batch of 2 keys where `model_b` is outstanding
produces a propagated exception (`Except.error`) carrying a single collected
result — not a normal return with 2 results, and with no `"timeout"`-status
record for `model_b`. -/
theorem c2_timeout_escapes :
    execute_models ["model_a", "model_b"] demoBehavior (fun k => k) (fun _ => 0)
      = Except.error
          [{ model_key := "model_a", model_name := "model_a",
             response := "hi", execution_time := 0, status := "success" }] := by
  rfl

/-- C6: a completed task records `status = "success"` exactly when its
controller returned a non-empty text; both `None` (tiers exhausted) and the
empty string are recorded as `status = "error"` with the "empty response"
message, never as success. -/
theorem c6_empty_is_error (key name : String) (elapsed : Nat)
    (resp : Option String) :
    ((execute_single_model key name elapsed resp).status = "success"
        ↔ ∃ s, resp = some s ∧ s ≠ "")
    ∧ ((resp = none ∨ resp = some "") →
        (execute_single_model key name elapsed resp).status = "error"
        ∧ (execute_single_model key name elapsed resp).error_message
            = some ("模型返回空响应")) := by
  cases resp with
  | none => simp [execute_single_model]
  | some s =>
    by_cases hs : s = ""
    · subst hs
      simp [execute_single_model]
    · simp [execute_single_model, hs]

/-- Witness for C6 at a concrete empty completion. -/
theorem c6_empty_is_error_witness :
    (execute_single_model "model_a" "Model A" 0 (some "")).status = "error"
    ∧ (execute_single_model "model_a" "Model A" 0 (some "")).error_message
        = some ("模型返回空响应") :=
  (c6_empty_is_error "model_a" "Model A" 0 (some "")).2 (Or.inr rfl)

/-- C7 counterexample: thinking markup can appear in a `status = "success"`
result even with streaming and `suppress_thinking = true`.  When the whole
response is one thinking region, `final_content` is empty, so
`_process_streaming_response` falls back to returning the raw `msg` —
markers, thinking text and all — and the dispatcher records it as a
success. -/
theorem c7_markup_leaks_cex :
    (execute_single_model ("model_a") ("Model A") 0
        (some (String.mk (processStreamingResponse [allThinkChunk] true)))).status
      = "success"
    ∧ containsSub thinkOpen
        (execute_single_model ("model_a") ("Model A") 0
          (some (String.mk (processStreamingResponse [allThinkChunk] true)))).response.data
      = true := by
  have htok : allThinkChunk = renderChunk allThinkToks := by decide
  have hrun : processChunks true [allThinkChunk] false
      = tokRun true allThinkToks false := by
    rw [htok]
    simpa using processChunks_render true [allThinkToks] false (by decide)
  have hresp : processStreamingResponse [allThinkChunk] true = allThinkChunk := by
    simp only [processStreamingResponse, hrun, tokRun_true]
    decide
  rw [hresp]
  decide

/-- C7 (amended): a success result's text is free of thinking markup and of
thinking-region content provided streaming with `suppress_thinking = true` is
used, the stream's markers are genuine and unsplit (`plainSafe` token
fragments), and at least one character lies outside every thinking region.
Then the recorded response is exactly the non-thinking portion, in which
neither `<think>` nor `</think>` occurs.  (Without these provisos the claim
fails: with `suppress_thinking = false` the raw text with markup is returned,
and see the counterexample for an all-thinking stream.) -/
theorem c7_success_no_markup (key name : String) (elapsed : Nat)
    (chunks : List (List Tok)) (h : chunks.all plainSafe = true)
    (hne : outsideChars chunks.flatten false ≠ []) :
    (execute_single_model key name elapsed
        (some (String.mk
          (processStreamingResponse (chunks.map renderChunk) true)))).status
      = "success"
    ∧ (execute_single_model key name elapsed
        (some (String.mk
          (processStreamingResponse (chunks.map renderChunk) true)))).response
      = String.mk (outsideChars chunks.flatten false)
    ∧ findSub thinkOpen (outsideChars chunks.flatten false) = none
    ∧ findSub thinkClose (outsideChars chunks.flatten false) = none := by
  have hrun := processChunks_render true chunks false h
  rw [tokRun_true] at hrun
  have hresp : processStreamingResponse (chunks.map renderChunk) true
      = outsideChars chunks.flatten false := by
    simp only [processStreamingResponse, hrun]
    simp [hne]
  have hno : ∀ c ∈ outsideChars chunks.flatten false, c ≠ '<' := fun c hc =>
    plainSafe_ch_ne _ (plainSafe_flatten _ h) c (outsideChars_mem _ _ _ hc)
  have hsne : String.mk (outsideChars chunks.flatten false) ≠ "" := by
    intro he
    exact hne (by simpa using congrArg String.data he)
  rw [hresp]
  refine ⟨?_, ?_, findSub_none_of_no_lt thinkOpen rfl _ hno,
    findSub_none_of_no_lt thinkClose rfl _ hno⟩
  · simp [execute_single_model, hsne]
  · simp [execute_single_model, hsne]

/-- Witness for C7 (amended) at the concrete fragment sequence `demoChunks`. -/
theorem c7_success_no_markup_witness :
    (demoChunks.all plainSafe = true
      ∧ outsideChars demoChunks.flatten false ≠ [])
    ∧ ((execute_single_model ("model_a") ("Model A") 0
          (some (String.mk
            (processStreamingResponse (demoChunks.map renderChunk) true)))).status
        = "success"
      ∧ (execute_single_model ("model_a") ("Model A") 0
          (some (String.mk
            (processStreamingResponse (demoChunks.map renderChunk) true)))).response
        = String.mk (outsideChars demoChunks.flatten false)
      ∧ findSub thinkOpen (outsideChars demoChunks.flatten false) = none
      ∧ findSub thinkClose (outsideChars demoChunks.flatten false) = none) :=
  ⟨⟨by decide, by decide⟩,
    c7_success_no_markup ("model_a") ("Model A") 0 demoChunks (by decide)
      (by decide)⟩

/-- C8 counterexample: `aggregate_results` stamps the report with the wall
clock (`time.strftime`) at call time, so two calls on the same query and the
same result list made one second apart yield reports that differ (in the
`timestamp` field) — they are not identical in every field. -/
theorem c8_identical_reports_cex :
    aggregate_results ("q") demoResults ("2025-01-01 10:00:00")
      ≠ aggregate_results ("q") demoResults ("2025-01-01 10:00:01") := by
  intro he
  have ht := congrArg AggregatedReport.timestamp he
  have h1 : (aggregate_results ("q") demoResults ("2025-01-01 10:00:00")).timestamp
      = "2025-01-01 10:00:00" := rfl
  have h2 : (aggregate_results ("q") demoResults ("2025-01-01 10:00:01")).timestamp
      = "2025-01-01 10:00:01" := rfl
  rw [h1, h2] at ht
  exact absurd ht (by decide)

/-- C8 (amended): aggregation is a pure function of the query, the result
list and the clock reading; two calls on the same inputs agree on every field
except `timestamp`, which records the wall-clock time of the call (and with
the clock reading fixed the whole reports are identical).  No state outside
the returned report is touched — the model is a function. -/
theorem c8_pure_aggregation (query : String) (results : List ModelResult)
    (now1 now2 : String) :
    (aggregate_results query results now1).query
        = (aggregate_results query results now2).query
    ∧ (aggregate_results query results now1).total_models
        = (aggregate_results query results now2).total_models
    ∧ (aggregate_results query results now1).successful_models
        = (aggregate_results query results now2).successful_models
    ∧ (aggregate_results query results now1).failed_models
        = (aggregate_results query results now2).failed_models
    ∧ (aggregate_results query results now1).execution_summary
        = (aggregate_results query results now2).execution_summary
    ∧ (aggregate_results query results now1).model_responses
        = (aggregate_results query results now2).model_responses
    ∧ (aggregate_results query results now1).summary_text
        = (aggregate_results query results now2).summary_text
    ∧ (aggregate_results query results now1).timestamp = now1
    ∧ (now1 = now2 →
        aggregate_results query results now1
          = aggregate_results query results now2) :=
  ⟨rfl, rfl, rfl, rfl, rfl, rfl, rfl, rfl, fun hnow => by rw [hnow]⟩

/-- Witness for C8 (amended) at concrete inputs with the clock fixed. -/
theorem c8_pure_aggregation_witness :
    ("2025-01-01 10:00:00" : String) = "2025-01-01 10:00:00"
    ∧ aggregate_results ("q") demoResults ("2025-01-01 10:00:00")
        = aggregate_results ("q") demoResults ("2025-01-01 10:00:00") :=
  ⟨rfl,
    (c8_pure_aggregation ("q") demoResults ("2025-01-01 10:00:00")
        ("2025-01-01 10:00:00")).2.2.2.2.2.2.2.2 rfl⟩

/-- C10: both execution summaries are total.  On an empty result list the
executor's summary has success rate 0 and average/min/max time 0 (the `total
> 0` and `successful > 0` guards avoid any division by zero), whenever there
is no successful result the three timing statistics are all 0, and the
aggregator's `_calculate_execution_summary` returns the all-zero dict under
the same guard. -/
theorem c10_summary_total (results : List ModelResult) :
    (get_execution_summary []).success_rate = 0
    ∧ (get_execution_summary []).average_time = 0
    ∧ (get_execution_summary []).min_time = 0
    ∧ (get_execution_summary []).max_time = 0
    ∧ ((get_successful_results results).length = 0 →
        (get_execution_summary results).average_time = 0
        ∧ (get_execution_summary results).min_time = 0
        ∧ (get_execution_summary results).max_time = 0)
    ∧ ((results.filter fun r => r.status == "success") = [] →
        calculate_execution_summary results
          = { total_time := 0, average_time := 0, min_time := 0,
              max_time := 0, success_rate := 0 }) := by
  refine ⟨rfl, rfl, rfl, rfl, fun h => ?_, fun h2 => ?_⟩
  · have h' : ¬ 0 < (get_successful_results results).length := by omega
    refine ⟨?_, ?_, ?_⟩ <;>
      · simp only [get_execution_summary]
        rw [if_neg h']
  · simp only [calculate_execution_summary]
    rw [if_pos h2]

/-- Witness for C10 at a concrete result list with no successes. -/
theorem c10_summary_total_witness :
    ((get_successful_results errOnlyResults).length = 0
      ∧ (errOnlyResults.filter fun r => r.status == "success") = [])
    ∧ ((get_execution_summary errOnlyResults).average_time = 0
      ∧ (get_execution_summary errOnlyResults).min_time = 0
      ∧ (get_execution_summary errOnlyResults).max_time = 0)
    ∧ calculate_execution_summary errOnlyResults
        = { total_time := 0, average_time := 0, min_time := 0,
            max_time := 0, success_rate := 0 } :=
  ⟨⟨by decide, by decide⟩,
    (c10_summary_total errOnlyResults).2.2.2.2.1 (by decide),
    (c10_summary_total errOnlyResults).2.2.2.2.2 (by decide)⟩

end SearchTool
